import Mathlib

/-!
Shallow embedding of the option subsystem of the Notes repository:
the option store accessors (`getOptionOrNull`, `getOption`, `getOptionInt`,
`getOptionBool`, `setOption`, `createOption`, `getOptionMap`) and the
startup default-initialization algorithm (`initStartupOptions` together
with the `defaultOptions` table), translated from
`src/services/options_init.ts`.

The entity framework (`becca`), the SQL layer and the keyboard-action
registry are collaborators of this file that live outside the given
sources; they are modelled from the specification where marked.
-/

namespace NotesOptions

/-- Modelled from the spec: the persisted option record
`(name, value, isSynced)` (the `lastModified` timestamp carries no logic
needed here and is omitted). In the source this is the `BOption` becca
entity. -/
structure BOption where
  name : String
  value : String
  isSynced : Bool
deriving DecidableEq, Repr

/-- Modelled from the spec: the process-wide state the store operates on.
`loaded` is `becca.loaded`; `registry` is the in-memory entity registry
`becca.options` (one entry per live entity, keyed by name); `rows` is the
persisted `options` table, in insertion order. -/
structure Store where
  loaded : Bool
  registry : List BOption
  rows : List BOption
deriving DecidableEq, Repr

/-- Modelled from the spec: `becca.getOption(name)` — lookup in the
in-memory entity registry only (no persistent-storage fallback). -/
def beccaGetOption (s : Store) (name : String) : Option BOption :=
  s.registry.find? (fun o => o.name = name)

/-- Modelled from the spec: `sql.getRow("SELECT * FROM options WHERE name = ?")`
— first persisted row with the given name. -/
def sqlGetRow (s : Store) (name : String) : Option BOption :=
  s.rows.find? (fun o => o.name = name)

/-- Modelled from the spec: registering a saved entity in the in-memory
registry (`becca.options[name] = entity`): replaces the entry with that
name when one exists, otherwise appends. -/
def registryPut (reg : List BOption) (o : BOption) : List BOption :=
  if reg.any (fun e => e.name = o.name) then
    reg.map (fun e => if e.name = o.name then o else e)
  else
    reg ++ [o]

/-- From `createOption` in the source: `new BOption({name, value, isSynced}).save()`.
The save of a fresh entity is modelled from the spec: it unconditionally
inserts the persisted row and registers the entity in the registry. -/
def createOption (s : Store) (name value : String) (isSynced : Bool) : Store :=
  { s with
    registry := registryPut s.registry ⟨name, value, isSynced⟩,
    rows := s.rows ++ [⟨name, value, isSynced⟩] }

/-- From `setOption` in the source: looks the option up via
`becca.getOption` only; when found, mutates `option.value` and saves
(modelled from the spec as updating the value of the registry entry and of
the persisted rows carrying that name); when absent, delegates to
`createOption` with `isSynced = false`. -/
def setOption (s : Store) (name value : String) : Store :=
  match beccaGetOption s name with
  | some _ =>
    { s with
      registry := s.registry.map
        (fun e => if e.name = name then { e with value := value } else e),
      rows := s.rows.map
        (fun e => if e.name = name then { e with value := value } else e) }
  | none => createOption s name value false

/-- Errors surfaced by the accessors: `NotFound` (missing option) and
`ParseError` (stored string outside the integer/boolean domain), each
carrying the option name, `ParseError` also the raw value. -/
inductive OptionError where
  | notFound (name : String)
  | parseError (name : String) (raw : String)
deriving DecidableEq, Repr

/-- From `getOptionOrNull` in the source: registry lookup when becca is
loaded, otherwise direct SQL row lookup; returns the value or null. -/
def getOptionOrNull (s : Store) (name : String) : Option String :=
  (if s.loaded then beccaGetOption s name else sqlGetRow s name).map
    (fun o => o.value)

/-- From `getOption` in the source: throws when `getOptionOrNull` gives null. -/
def getOption (s : Store) (name : String) : Except OptionError String :=
  match getOptionOrNull s name with
  | none => .error (.notFound name)
  | some v => .ok v

/-- Numeric value of a hexadecimal digit character (0 for non-digits;
only applied to characters accepted by `isRadixDigit`). -/
def hexDigitVal (c : Char) : Nat :=
  if c.isDigit then c.toNat - 48
  else if 'a' ≤ c ∧ c ≤ 'f' then c.toNat - 87
  else if 'A' ≤ c ∧ c ≤ 'F' then c.toNat - 55
  else 0

/-- Digits accepted by JavaScript `parseInt` for radix 10 or 16. -/
def isRadixDigit (radix : Nat) (c : Char) : Bool :=
  if radix = 16 then c.isDigit || ('a' ≤ c && c ≤ 'f') || ('A' ≤ c && c ≤ 'F')
  else c.isDigit

/-- Value of a digit string in the given radix. -/
def digitsToNat (radix : Nat) (l : List Char) : Nat :=
  l.foldl (fun acc c => acc * radix + hexDigitVal c) 0

/-- JavaScript whitespace skipped by `parseInt`. -/
def jsWhitespace (c : Char) : Bool :=
  c = ' ' || c = '\t' || c = '\n' || c = '\r' || c = '\x0b' || c = '\x0c'

/-- Sign handling of JavaScript `parseInt`: a leading minus or plus is
consumed and remembered. -/
def stripSign (l : List Char) : Int × List Char :=
  match l with
  | '-' :: rest => (-1, rest)
  | '+' :: rest => (1, rest)
  | _ => (1, l)

/-- Radix detection of JavaScript `parseInt` with no radix argument: a
leading `0x`/`0X` selects base 16, anything else base 10. -/
def stripHexPrefix (l : List Char) : Nat × List Char :=
  match l with
  | '0' :: 'x' :: rest => (16, rest)
  | '0' :: 'X' :: rest => (16, rest)
  | _ => (10, l)

/-- JavaScript `parseInt(s)` with no radix argument: skip leading
whitespace, read an optional sign, detect a `0x`/`0X` hexadecimal prefix,
then take the longest run of radix digits; `none` models `NaN` (no digit
could be read at all). -/
def jsParseInt (s : String) : Option Int :=
  let cs := s.data.dropWhile jsWhitespace
  let sr := stripSign cs
  let rr := stripHexPrefix sr.2
  let digits := rr.2.takeWhile (isRadixDigit rr.1)
  if digits.isEmpty then none
  else some (sr.1 * (digitsToNat rr.1 digits : Nat))

/-- The base-10 integer parser as the specification words it (second
definition, for comparison with the `parseInt`-based code path): the whole
string must be an optional minus sign followed by decimal digits. -/
def specDecimalInt (str : String) : Option Int :=
  match str.data with
  | [] => none
  | c :: rest =>
    if c = '-' then
      if rest ≠ [] ∧ rest.all Char.isDigit then some (-(digitsToNat 10 rest : Nat))
      else none
    else if (c :: rest).all Char.isDigit then some ((digitsToNat 10 (c :: rest) : Nat) : Int)
    else none

/-- From `getOptionInt` in the source: `parseInt` the stored value; on
`NaN` return the default when supplied, else throw a parse error naming
the option and the raw value. -/
def getOptionInt (s : Store) (name : String) (defaultValue : Option Int) :
    Except OptionError Int :=
  match getOption s name with
  | .error e => .error e
  | .ok val =>
    match jsParseInt val with
    | some intVal => .ok intVal
    | none =>
      match defaultValue with
      | none => .error (.parseError name val)
      | some d => .ok d

/-- From `getOptionBool` in the source: the stored value must be exactly
the literal string true or false; anything else throws a parse error. -/
def getOptionBool (s : Store) (name : String) : Except OptionError Bool :=
  match getOption s name with
  | .error e => .error e
  | .ok val =>
    if val = "true" ∨ val = "false" then .ok (val = "true")
    else .error (.parseError name val)

/-- The `OptionMap` of the source: a JavaScript record from option name to
string value, modelled as an association list with unique keys kept in
insertion order. -/
abbrev OptionMap := List (String × String)

/-- JavaScript property assignment `map[k] = v`: overwrite the entry when
the key is present, otherwise append it. -/
def mapPut (m : OptionMap) (k v : String) : OptionMap :=
  if m.any (fun p => p.1 = k) then
    m.map (fun p => if p.1 = k then (k, v) else p)
  else
    m ++ [(k, v)]

/-- JavaScript `k in map`. -/
def mapHas (m : OptionMap) (k : String) : Bool :=
  m.any (fun p => p.1 = k)

/-- JavaScript property read `map[k]` (undefined when absent). -/
def mapGet (m : OptionMap) (k : String) : Option String :=
  (m.find? (fun p => p.1 = k)).map (fun p => p.2)

/-- From `getOptionMap` in the source: rebuild the name-to-value record
from the live entities of the registry. -/
def getOptionMap (s : Store) : OptionMap :=
  s.registry.foldl (fun m o => mapPut m o.name o.value) []

/-- The `value` field of a `DefaultOption` descriptor: either a literal
string or a function of the current option map. -/
inductive DefaultValue where
  | literal (v : String)
  | derived (f : OptionMap → String)

/-- A row of the `defaultOptions` table: name, literal-or-derived default
value, and the sync flag the option is created with. -/
structure DefaultOption where
  name : String
  value : DefaultValue
  isSynced : Bool

/-- From `initStartupOptions` in the source: a function-typed `value` is
invoked with the option map, a string `value` is used as-is. -/
def resolveValue : DefaultValue → OptionMap → String
  | .literal v, _ => v
  | .derived f, m => f m

/-- JSON string escaping for the serializations below (quote and
backslash; other characters are stored as-is). -/
def jsonEscape (s : String) : String :=
  String.mk (s.data.foldr
    (fun c acc => if c = '"' ∨ c = '\\' then '\\' :: c :: acc else c :: acc) [])

/-- `JSON.stringify` of an array of strings. -/
def jsonStringifyStrings (l : List String) : String :=
  "[" ++ String.intercalate "," (l.map (fun t => "\"" ++ jsonEscape t ++ "\"")) ++ "]"

/-- The derived default for `codeBlockTheme` from the source table: reads
`optionsMap.theme` and selects the light or the dark stackoverflow
highlight theme (absence of `theme` comparing unequal to the string
light). -/
def codeBlockThemeDefault (optionsMap : OptionMap) : String :=
  if mapGet optionsMap "theme" = some "light" then
    "default:stackoverflow-light"
  else
    "default:stackoverflow-dark"

/-- The collection of options the current lookup path of
`getOptionOrNull` consults: the entity registry when becca is loaded, the
persisted rows otherwise. -/
def activeOptions (s : Store) : List BOption :=
  if s.loaded then s.registry else s.rows

/-- The `defaultOptions` table of the source, verbatim; `win32` stands for
`process.platform === "win32"` (it only selects the `zoomFactor`
literal). -/
def defaultOptions (win32 : Bool) : List DefaultOption := [
  ⟨"revisionSnapshotTimeInterval", .literal "600", true⟩,
  ⟨"revisionSnapshotNumberLimit", .literal "-1", true⟩,
  ⟨"protectedSessionTimeout", .literal "600", true⟩,
  ⟨"zoomFactor", .literal (if win32 then "0.9" else "1.0"), false⟩,
  ⟨"overrideThemeFonts", .literal "false", false⟩,
  ⟨"mainFontFamily", .literal "theme", false⟩,
  ⟨"mainFontSize", .literal "100", false⟩,
  ⟨"treeFontFamily", .literal "theme", false⟩,
  ⟨"treeFontSize", .literal "100", false⟩,
  ⟨"detailFontFamily", .literal "theme", false⟩,
  ⟨"detailFontSize", .literal "110", false⟩,
  ⟨"monospaceFontFamily", .literal "theme", false⟩,
  ⟨"monospaceFontSize", .literal "110", false⟩,
  ⟨"spellCheckEnabled", .literal "true", false⟩,
  ⟨"spellCheckLanguageCode", .literal "en-US", false⟩,
  ⟨"imageMaxWidthHeight", .literal "2000", true⟩,
  ⟨"imageJpegQuality", .literal "75", true⟩,
  ⟨"autoFixConsistencyIssues", .literal "true", false⟩,
  ⟨"vimKeymapEnabled", .literal "false", false⟩,
  ⟨"codeLineWrapEnabled", .literal "true", false⟩,
  ⟨"codeNotesMimeTypes", .literal "[\"text/x-csrc\",\"text/x-c++src\",\"text/x-csharp\",\"text/css\",\"text/x-go\",\"text/x-groovy\",\"text/x-haskell\",\"text/html\",\"message/http\",\"text/x-java\",\"application/javascript;env=frontend\",\"application/javascript;env=backend\",\"application/json\",\"text/x-kotlin\",\"text/x-markdown\",\"text/x-perl\",\"text/x-php\",\"text/x-python\",\"text/x-ruby\",null,\"text/x-sql\",\"text/x-sqlite;schema=trilium\",\"text/x-swift\",\"text/xml\",\"text/x-yaml\",\"text/x-sh\"]", true⟩,
  ⟨"leftPaneWidth", .literal "25", false⟩,
  ⟨"leftPaneVisible", .literal "true", false⟩,
  ⟨"rightPaneWidth", .literal "25", false⟩,
  ⟨"rightPaneVisible", .literal "true", false⟩,
  ⟨"nativeTitleBarVisible", .literal "false", false⟩,
  ⟨"eraseEntitiesAfterTimeInSeconds", .literal "604800", true⟩,
  ⟨"hideArchivedNotes_main", .literal "false", false⟩,
  ⟨"debugModeEnabled", .literal "false", false⟩,
  ⟨"headingStyle", .literal "underline", true⟩,
  ⟨"autoCollapseNoteTree", .literal "true", true⟩,
  ⟨"autoReadonlySizeText", .literal "10000", false⟩,
  ⟨"autoReadonlySizeCode", .literal "30000", false⟩,
  ⟨"dailyBackupEnabled", .literal "true", false⟩,
  ⟨"weeklyBackupEnabled", .literal "true", false⟩,
  ⟨"monthlyBackupEnabled", .literal "true", false⟩,
  ⟨"maxContentWidth", .literal "1200", false⟩,
  ⟨"compressImages", .literal "true", true⟩,
  ⟨"downloadImagesAutomatically", .literal "true", true⟩,
  ⟨"minTocHeadings", .literal "5", true⟩,
  ⟨"highlightsList", .literal "[\"bold\",\"italic\",\"underline\",\"color\",\"bgColor\"]", true⟩,
  ⟨"checkForUpdates", .literal "true", true⟩,
  ⟨"disableTray", .literal "false", false⟩,
  ⟨"eraseUnusedAttachmentsAfterSeconds", .literal "2592000", true⟩,
  ⟨"customSearchEngineName", .literal "DuckDuckGo", true⟩,
  ⟨"customSearchEngineUrl", .literal "https://duckduckgo.com/?q=\x7bkeyword\x7d", true⟩,
  ⟨"promotedAttributesOpenInRibbon", .literal "true", true⟩,
  ⟨"editedNotesOpenInRibbon", .literal "true", true⟩,
  ⟨"locale", .literal "en", true⟩,
  ⟨"firstDayOfWeek", .literal "1", true⟩,
  ⟨"codeBlockTheme", .derived codeBlockThemeDefault, false⟩,
  ⟨"codeBlockWordWrap", .literal "false", true⟩,
  ⟨"textNoteEditorType", .literal "ckeditor-balloon", true⟩,
  ⟨"textNoteEditorMultilineToolbar", .literal "false", true⟩,
  ⟨"layoutOrientation", .literal "vertical", false⟩,
  ⟨"backgroundEffects", .literal "false", false⟩,
  ⟨"allowedHtmlTags", .literal (jsonStringifyStrings [
    "h1", "h2", "h3", "h4", "h5", "h6", "blockquote", "p", "a", "ul", "ol",
    "li", "b", "i", "strong", "em", "strike", "s", "del", "abbr", "code", "hr", "br", "div",
    "table", "thead", "caption", "tbody", "tfoot", "tr", "th", "td", "pre", "section", "img",
    "figure", "figcaption", "span", "label", "input", "details", "summary", "address", "aside", "footer",
    "header", "hgroup", "main", "nav", "dl", "dt", "menu", "bdi", "bdo", "dfn", "kbd", "mark", "q", "time",
    "var", "wbr", "area", "map", "track", "video", "audio", "picture", "del", "ins",
    "en-media",
    "acronym", "article", "big", "button", "cite", "col", "colgroup", "data", "dd",
    "fieldset", "form", "legend", "meter", "noscript", "option", "progress", "rp",
    "samp", "small", "sub", "sup", "template", "textarea", "tt"]), true⟩
]

/-- JavaScript `s.charAt(0).toUpperCase() + s.slice(1)`. -/
def capitalizeFirst (s : String) : String :=
  match s.data with
  | [] => ""
  | c :: rest => String.mk (c.toUpper :: rest)

/-- Modelled from the spec: an entry of the keyboard-action registry — an
action identifier (empty for separators, which are filtered out) and its
default shortcuts. -/
structure KeyboardAction where
  actionName : String
  defaultShortcuts : List String

/-- From `getKeyboardDefaultOptions` in the source: one local-only default
per registered action with a non-empty name, named
`keyboardShortcuts<ActionName>`, valued at the serialized default
shortcuts. -/
def getKeyboardDefaultOptions (actions : List KeyboardAction) : List DefaultOption :=
  (actions.filter (fun ka => !(ka.actionName == ""))).map
    (fun ka => ⟨"keyboardShortcuts" ++ capitalizeFirst ka.actionName,
      .literal (jsonStringifyStrings ka.defaultShortcuts), false⟩)

/-- The environment inputs read by `initStartupOptions`:
`TRILIUM_START_NOTE_ID` and `TRILIUM_SAFE_MODE` (unset or empty is falsy). -/
structure Env where
  startNoteId : Option String
  safeMode : Option String

/-- JavaScript truthiness of an optional environment string. -/
def envTruthy : Option String → Bool
  | none => false
  | some s => !(s == "")

/-- `JSON.stringify([realize notePath, active: true])` as built by the
environment override of `initStartupOptions`. -/
def openNoteContextsJson (notePath : String) : String :=
  "[\x7b\"notePath\":\"" ++ jsonEscape notePath ++ "\",\"active\":true\x7d]"

/-- The loop of `initStartupOptions`: for each descriptor whose name is
absent from the snapshot map `m`, resolve the value against `m` and create
the option. -/
def applyDefaults (m : OptionMap) (defaults : List DefaultOption) (s : Store) : Store :=
  defaults.foldl
    (fun st d =>
      if mapHas m d.name then st
      else createOption st d.name (resolveValue d.value m) d.isSynced)
    s

/-- From `initStartupOptions` in the source: snapshot the option map once,
walk the concatenation of the static table and the keyboard defaults
creating every absent option, then, when either environment variable is
truthy, force `openNoteContexts` through `setOption`. -/
def initStartupOptions (win32 : Bool) (actions : List KeyboardAction)
    (env : Env) (s : Store) : Store :=
  let optionsMap := getOptionMap s
  let allDefaultOptions := defaultOptions win32 ++ getKeyboardDefaultOptions actions
  let s1 := applyDefaults optionsMap allDefaultOptions s
  if envTruthy env.startNoteId || envTruthy env.safeMode then
    setOption s1 "openNoteContexts"
      (openNoteContextsJson
        (match env.startNoteId with
         | some id => if id == "" then "root" else id
         | none => "root"))
  else
    s1

/-! ### General list helper lemmas -/

theorem list_any_congr {α : Type} {p q : α → Bool} :
    ∀ {l : List α}, (∀ x ∈ l, p x = q x) → l.any p = l.any q
  | [], _ => rfl
  | a :: l, h => by
    simp only [List.any_cons]
    rw [h a (List.mem_cons_self a l), list_any_congr (fun x hx => h x (List.mem_cons_of_mem a hx))]

theorem list_map_id_of_mem {α : Type} {f : α → α} :
    ∀ {l : List α}, (∀ x ∈ l, f x = x) → l.map f = l
  | [], _ => rfl
  | a :: l, h => by
    simp only [List.map_cons]
    rw [h a (List.mem_cons_self a l), list_map_id_of_mem (fun x hx => h x (List.mem_cons_of_mem a hx))]

theorem list_find?_append_of_none {α : Type} {p : α → Bool} :
    ∀ {l₁ l₂ : List α}, l₁.find? p = none → (l₁ ++ l₂).find? p = l₂.find? p
  | [], _, _ => rfl
  | a :: l, l₂, h => by
    simp only [List.find?_cons] at h ⊢
    cases hp : p a with
    | true => rw [hp] at h; exact absurd h (by simp)
    | false =>
      rw [hp] at h
      simp only [List.cons_append]
      rw [List.find?_cons, hp]
      exact list_find?_append_of_none h

theorem list_takeWhile_append_stop {α : Type} {p : α → Bool} {c : α} {r : List α} :
    ∀ {l : List α}, (∀ x ∈ l, p x = true) → p c = false →
      ((l ++ c :: r).takeWhile p) = l
  | [], _, hc => by simp [List.takeWhile_cons, hc]
  | a :: l, h, hc => by
    have ha : p a = true := h a (List.mem_cons_self a l)
    have ih := list_takeWhile_append_stop (p := p) (c := c) (r := r)
      (fun x hx => h x (List.mem_cons_of_mem a hx)) hc
    simp [List.cons_append, List.takeWhile_cons, ha, ih]

theorem list_dropWhile_of_head_false {α : Type} {p : α → Bool} {l : List α}
    (h : ∀ c t, l = c :: t → p c = false) : l.dropWhile p = l := by
  cases l with
  | nil => rfl
  | cons a t => rw [List.dropWhile_cons, h a t rfl]; simp

/-! ### Character and parse helper lemmas -/

theorem jsWhitespace_of_isDigit {c : Char} (h : c.isDigit = true) :
    jsWhitespace c = false := by
  simp only [jsWhitespace, Bool.or_eq_false_iff, decide_eq_false_iff_not]
  refine ⟨⟨⟨⟨⟨?_, ?_⟩, ?_⟩, ?_⟩, ?_⟩, ?_⟩ <;>
    (rintro rfl; exact absurd h (by decide))

theorem not_sign_of_isDigit {c : Char} (h : c.isDigit = true) :
    c ≠ '-' ∧ c ≠ '+' := by
  constructor <;> (rintro rfl; exact absurd h (by decide))

theorem ne_hex_marker_of_isDigit {c : Char} (h : c.isDigit = true) :
    c ≠ 'x' ∧ c ≠ 'X' := by
  constructor <;> (rintro rfl; exact absurd h (by decide))

theorem stripSign_eq_of_no_sign {l : List Char}
    (h : ∀ c t, l = c :: t → c ≠ '-' ∧ c ≠ '+') : stripSign l = (1, l) := by
  unfold stripSign
  split
  · exact absurd rfl (h '-' _ rfl).1
  · exact absurd rfl (h '+' _ rfl).2
  · rfl

theorem stripHexPrefix_eq_of_no_hex {l : List Char}
    (h : ∀ c₁ c₂ t, l = c₁ :: c₂ :: t → c₂ ≠ 'x' ∧ c₂ ≠ 'X') :
    stripHexPrefix l = (10, l) := by
  unfold stripHexPrefix
  split
  · exact absurd rfl (h '0' 'x' _ rfl).1
  · exact absurd rfl (h '0' 'X' _ rfl).2
  · rfl

theorem isRadixDigit_ten (c : Char) : isRadixDigit 10 c = c.isDigit := by
  simp [isRadixDigit]

theorem jsParseInt_digits {a : Char} {t : List Char}
    (hd : ∀ c ∈ a :: t, c.isDigit = true) :
    jsParseInt (String.mk (a :: t)) = some ((digitsToNat 10 (a :: t) : Nat) : Int) := by
  have ha : a.isDigit = true := hd a (List.mem_cons_self a t)
  have h2 : (a :: t).dropWhile jsWhitespace = a :: t := by
    rw [List.dropWhile_cons, jsWhitespace_of_isDigit ha]; simp
  have h3 : stripSign (a :: t) = (1, a :: t) := by
    apply stripSign_eq_of_no_sign
    rintro c ts heq
    injection heq with e1 _
    subst e1
    exact not_sign_of_isDigit ha
  have h4 : stripHexPrefix (a :: t) = (10, a :: t) := by
    apply stripHexPrefix_eq_of_no_hex
    rintro c1 c2 ts heq
    injection heq with _ erest
    exact ne_hex_marker_of_isDigit
      (hd c2 (by rw [erest]; exact List.mem_cons_of_mem a (List.mem_cons_self c2 ts)))
  have h5 : (a :: t).takeWhile (isRadixDigit 10) = a :: t := by
    apply List.takeWhile_eq_self_iff.mpr
    intro x hx
    rw [isRadixDigit_ten]
    exact hd x hx
  simp only [jsParseInt, String.data, h2, h3, h4, h5]
  simp

theorem jsParseInt_neg_digits {b : Char} {u : List Char}
    (hd : ∀ c ∈ b :: u, c.isDigit = true) :
    jsParseInt (String.mk ('-' :: b :: u)) =
      some (-((digitsToNat 10 (b :: u) : Nat) : Int)) := by
  have hb : b.isDigit = true := hd b (List.mem_cons_self b u)
  have h2 : ('-' :: b :: u).dropWhile jsWhitespace = '-' :: b :: u := by
    rw [List.dropWhile_cons, show jsWhitespace '-' = false from by decide]; simp
  have h3 : stripSign ('-' :: b :: u) = (-1, b :: u) := rfl
  have h4 : stripHexPrefix (b :: u) = (10, b :: u) := by
    apply stripHexPrefix_eq_of_no_hex
    rintro c1 c2 ts heq
    injection heq with _ erest
    exact ne_hex_marker_of_isDigit
      (hd c2 (by rw [erest]; exact List.mem_cons_of_mem b (List.mem_cons_self c2 ts)))
  have h5 : (b :: u).takeWhile (isRadixDigit 10) = b :: u := by
    apply List.takeWhile_eq_self_iff.mpr
    intro x hx
    rw [isRadixDigit_ten]
    exact hd x hx
  simp only [jsParseInt, String.data, h2, h3, h4, h5]
  simp

theorem jsParseInt_digits_then_stop {a : Char} {t r : List Char} {c : Char}
    (hd : ∀ x ∈ a :: t, x.isDigit = true) (hc : c.isDigit = false)
    (hx : c ≠ 'x') (hX : c ≠ 'X') :
    jsParseInt (String.mk ((a :: t) ++ c :: r)) =
      some ((digitsToNat 10 (a :: t) : Nat) : Int) := by
  have ha : a.isDigit = true := hd a (List.mem_cons_self a t)
  have h2 : ((a :: t) ++ c :: r).dropWhile jsWhitespace = (a :: t) ++ c :: r := by
    rw [List.cons_append, List.dropWhile_cons, jsWhitespace_of_isDigit ha]
    simp
  have h3 : stripSign ((a :: t) ++ c :: r) = (1, (a :: t) ++ c :: r) := by
    apply stripSign_eq_of_no_sign
    rintro c1 ts heq
    rw [List.cons_append] at heq
    injection heq with e1 _
    subst e1
    exact not_sign_of_isDigit ha
  have h4 : stripHexPrefix ((a :: t) ++ c :: r) = (10, (a :: t) ++ c :: r) := by
    apply stripHexPrefix_eq_of_no_hex
    rintro c1 c2 ts heq
    rw [List.cons_append] at heq
    injection heq with _ erest
    cases t with
    | nil =>
      simp only [List.nil_append] at erest
      injection erest with e2 _
      subst e2
      exact ⟨hx, hX⟩
    | cons b bu =>
      rw [List.cons_append] at erest
      have e2 : b = c2 := by injection erest
      rw [← e2]
      exact ne_hex_marker_of_isDigit (hd b (List.mem_cons_of_mem a (List.mem_cons_self b bu)))
  have h5 : ((a :: t) ++ c :: r).takeWhile (isRadixDigit 10) = a :: t := by
    apply list_takeWhile_append_stop
    · intro x hxm
      rw [isRadixDigit_ten]
      exact hd x hxm
    · rw [isRadixDigit_ten]
      exact hc
  simp only [jsParseInt, String.data, h2, h3, h4, h5]
  simp

theorem jsParseInt_of_specDecimal {str : String} {i : Int}
    (h : specDecimalInt str = some i) : jsParseInt str = some i := by
  obtain ⟨l⟩ := str
  cases l with
  | nil => simp [specDecimalInt] at h
  | cons a t =>
    simp only [specDecimalInt] at h
    by_cases hminus : a = '-'
    · subst hminus
      rw [if_pos rfl] at h
      by_cases hcond : t ≠ [] ∧ t.all Char.isDigit
      · rw [if_pos hcond] at h
        obtain ⟨hne, hall⟩ := hcond
        obtain ⟨b, u, rfl⟩ : ∃ b u, t = b :: u := by
          cases t with
          | nil => exact absurd rfl hne
          | cons b u => exact ⟨b, u, rfl⟩
        rw [jsParseInt_neg_digits (fun c hc => List.all_eq_true.mp hall c hc)]
        injection h with h
        rw [h]
      · rw [if_neg hcond] at h
        exact absurd h (by simp)
    · rw [if_neg hminus] at h
      by_cases hall : (a :: t).all Char.isDigit
      · rw [if_pos hall] at h
        rw [jsParseInt_digits (fun c hc => List.all_eq_true.mp hall c hc)]
        injection h with h
        rw [h]
      · rw [if_neg hall] at h
        exact absurd h (by simp)

/-! ### Store helper lemmas -/

theorem activeOptions_lookup (s : Store) (n : String) :
    getOptionOrNull s n =
      ((activeOptions s).find? (fun o => o.name = n)).map (fun o => o.value) := by
  unfold getOptionOrNull activeOptions beccaGetOption sqlGetRow
  cases h : s.loaded <;> simp

theorem find?_name_map {l : List BOption} {n v : String} {o : BOption}
    (h : l.find? (fun e => e.name = n) = some o) :
    (l.map (fun e => if e.name = n then { e with value := v } else e)).find?
      (fun e => e.name = n) = some { o with value := v } := by
  induction l with
  | nil => simp at h
  | cons a t ih =>
    by_cases ha : a.name = n
    · rw [List.find?_cons_of_pos _ (by simpa using ha)] at h
      injection h with h
      subst h
      rw [List.map_cons, if_pos ha, List.find?_cons_of_pos _ (by simpa using ha)]
    · rw [List.find?_cons_of_neg _ (by simpa using ha)] at h
      rw [List.map_cons, if_neg ha, List.find?_cons_of_neg _ (by simpa using ha)]
      exact ih h

/-! ### Claim theorems (error handling and store mutation) -/

/-- C2: for every name absent from the consulted collection of options,
`getOptionOrNull` returns null (without throwing) and `getOption` fails
with the `NotFound` condition; for every name present, both return the
stored string value. -/
theorem getOption_absent_and_present (s : Store) (n : String) :
    ((∀ o ∈ activeOptions s, o.name ≠ n) →
      getOptionOrNull s n = none
      ∧ getOption s n = Except.error (OptionError.notFound n))
  ∧ (∀ o, (activeOptions s).find? (fun e => e.name = n) = some o →
      o ∈ activeOptions s ∧ o.name = n
      ∧ getOptionOrNull s n = some o.value
      ∧ getOption s n = Except.ok o.value) := by
  constructor
  · intro h
    have hf : (activeOptions s).find? (fun o => o.name = n) = none :=
      List.find?_eq_none.mpr (fun x hx => by simpa using h x hx)
    have h1 : getOptionOrNull s n = none := by rw [activeOptions_lookup, hf]; rfl
    exact ⟨h1, by simp [getOption, h1]⟩
  · intro o hf
    have h1 : getOptionOrNull s n = some o.value := by rw [activeOptions_lookup, hf]; rfl
    exact ⟨List.mem_of_find?_eq_some hf, by simpa using List.find?_some hf, h1,
      by simp [getOption, h1]⟩

/-- Witness for C2 at concrete stores: an empty loaded store misses
`theme`; a store holding `theme = next` returns it. -/
theorem getOption_absent_and_present_witness :
    (getOptionOrNull (Store.mk true [] []) "theme" = none
      ∧ getOption (Store.mk true [] []) "theme"
          = Except.error (OptionError.notFound "theme"))
  ∧ (getOptionOrNull (Store.mk true [⟨"theme", "next", false⟩] []) "theme" = some "next"
      ∧ getOption (Store.mk true [⟨"theme", "next", false⟩] []) "theme"
          = Except.ok "next") := by
  constructor
  · exact (getOption_absent_and_present (Store.mk true [] []) "theme").1
      (by intro o ho; simp [activeOptions] at ho)
  · have h := (getOption_absent_and_present
      (Store.mk true [⟨"theme", "next", false⟩] []) "theme").2
      ⟨"theme", "next", false⟩ (by rfl)
    exact ⟨h.2.2.1, h.2.2.2⟩

/-- C3: `setOption` on a name found in the entity registry updates that
option's value in place (no row is inserted); on a name the registry does
not hold it delegates to `createOption` with `isSynced = false`; the
operation is total, so it never fails for an absent option. -/
theorem setOption_update_or_create (s : Store) (n v : String) :
    (beccaGetOption s n = none → setOption s n v = createOption s n v false)
  ∧ (∀ o, beccaGetOption s n = some o →
      (setOption s n v).registry =
        s.registry.map (fun e => if e.name = n then { e with value := v } else e)
      ∧ beccaGetOption (setOption s n v) n = some { o with value := v }
      ∧ (setOption s n v).rows.length = s.rows.length) := by
  constructor
  · intro h
    simp [setOption, h]
  · intro o h
    have h' : s.registry.find? (fun e => e.name = n) = some o := h
    refine ⟨by simp [setOption, h], ?_, by simp [setOption, h]⟩
    simp only [setOption, beccaGetOption, h']
    exact find?_name_map h'

/-- Witness for C3: setting an absent name creates it unsynced; setting a
present name rewrites its registry value. -/
theorem setOption_update_or_create_witness :
    setOption (Store.mk true [] []) "theme" "dark"
      = createOption (Store.mk true [] []) "theme" "dark" false
  ∧ beccaGetOption
      (setOption (Store.mk true [⟨"theme", "next", false⟩] [⟨"theme", "next", false⟩])
        "theme" "dark") "theme" = some ⟨"theme", "dark", false⟩ := by
  constructor
  · exact (setOption_update_or_create (Store.mk true [] []) "theme" "dark").1 rfl
  · exact ((setOption_update_or_create
      (Store.mk true [⟨"theme", "next", false⟩] [⟨"theme", "next", false⟩])
      "theme" "dark").2 ⟨"theme", "next", false⟩ rfl).2.1

/-- C4: on an existing option, `getOptionInt` returns the base-10 integer
value of the stored string whenever the whole string is a decimal
numeral; when parsing fails it returns the supplied default, and with no
default it fails with `ParseError` carrying the option name and the raw
value; concretely a stored 42 parses to 42, a stored abc with no default
is a `ParseError` naming the option and abc, and with default 7 it
returns 7. -/
theorem getOptionInt_parse (s : Store) (n : String) :
    (∀ val i d, getOption s n = Except.ok val → specDecimalInt val = some i →
        getOptionInt s n d = Except.ok i)
  ∧ (∀ val, getOption s n = Except.ok val → jsParseInt val = none →
      getOptionInt s n none = Except.error (OptionError.parseError n val)
      ∧ ∀ i, getOptionInt s n (some i) = Except.ok i)
  ∧ (∀ d, getOption s n = Except.ok "42" → getOptionInt s n d = Except.ok 42)
  ∧ (getOption s n = Except.ok "abc" →
      getOptionInt s n none = Except.error (OptionError.parseError n "abc")
      ∧ getOptionInt s n (some 7) = Except.ok 7) := by
  have base : ∀ val i d, getOption s n = Except.ok val → specDecimalInt val = some i →
      getOptionInt s n d = Except.ok i := by
    intro val i d hget hspec
    have hjs := jsParseInt_of_specDecimal hspec
    simp [getOptionInt, hget, hjs]
  refine ⟨base, ?_, ?_, ?_⟩
  · intro val hget hnan
    exact ⟨by simp [getOptionInt, hget, hnan], fun i => by simp [getOptionInt, hget, hnan]⟩
  · intro d hget
    exact base "42" 42 d hget (by decide)
  · intro hget
    have habc : jsParseInt "abc" = none := by decide
    exact ⟨by simp [getOptionInt, hget, habc], by simp [getOptionInt, hget, habc]⟩

/-- Witness for C4 at a concrete store holding options valued 42 and abc. -/
theorem getOptionInt_parse_witness :
    getOptionInt (Store.mk true [⟨"a", "42", false⟩, ⟨"b", "abc", false⟩] []) "a" none
      = Except.ok 42
  ∧ getOptionInt (Store.mk true [⟨"a", "42", false⟩, ⟨"b", "abc", false⟩] []) "b" none
      = Except.error (OptionError.parseError "b" "abc")
  ∧ getOptionInt (Store.mk true [⟨"a", "42", false⟩, ⟨"b", "abc", false⟩] []) "b" (some 7)
      = Except.ok 7 := by
  refine ⟨?_, ?_, ?_⟩
  · exact (getOptionInt_parse
      (Store.mk true [⟨"a", "42", false⟩, ⟨"b", "abc", false⟩] []) "a").2.2.1 none (by rfl)
  · exact ((getOptionInt_parse
      (Store.mk true [⟨"a", "42", false⟩, ⟨"b", "abc", false⟩] []) "b").2.2.2 (by rfl)).1
  · exact ((getOptionInt_parse
      (Store.mk true [⟨"a", "42", false⟩, ⟨"b", "abc", false⟩] []) "b").2.2.2 (by rfl)).2

/-- C5: on an existing option, `getOptionBool` returns true exactly on the
stored literal string true and false exactly on the literal false; every
other stored string fails with `ParseError` — no coercion. -/
theorem getOptionBool_strict (s : Store) (n : String) :
    (getOption s n = Except.ok "true" → getOptionBool s n = Except.ok true)
  ∧ (getOption s n = Except.ok "false" → getOptionBool s n = Except.ok false)
  ∧ (∀ val, getOption s n = Except.ok val → val ≠ "true" → val ≠ "false" →
      getOptionBool s n = Except.error (OptionError.parseError n val)) := by
  refine ⟨?_, ?_, ?_⟩
  · intro h
    simp [getOptionBool, h]
  · intro h
    simp [getOptionBool, h]
  · intro val h h1 h2
    simp [getOptionBool, h, h1, h2]

/-- Witness for C5 at a concrete store holding true, false and 1. -/
theorem getOptionBool_strict_witness :
    getOptionBool (Store.mk true [⟨"t", "true", false⟩, ⟨"f", "false", false⟩,
        ⟨"o", "1", false⟩] []) "t" = Except.ok true
  ∧ getOptionBool (Store.mk true [⟨"t", "true", false⟩, ⟨"f", "false", false⟩,
        ⟨"o", "1", false⟩] []) "f" = Except.ok false
  ∧ getOptionBool (Store.mk true [⟨"t", "true", false⟩, ⟨"f", "false", false⟩,
        ⟨"o", "1", false⟩] []) "o"
      = Except.error (OptionError.parseError "o" "1") := by
  refine ⟨?_, ?_, ?_⟩
  · exact (getOptionBool_strict (Store.mk true [⟨"t", "true", false⟩,
      ⟨"f", "false", false⟩, ⟨"o", "1", false⟩] []) "t").1 (by rfl)
  · exact (getOptionBool_strict (Store.mk true [⟨"t", "true", false⟩,
      ⟨"f", "false", false⟩, ⟨"o", "1", false⟩] []) "f").2.1 (by rfl)
  · exact (getOptionBool_strict (Store.mk true [⟨"t", "true", false⟩,
      ⟨"f", "false", false⟩, ⟨"o", "1", false⟩] []) "o").2.2 "1" (by rfl)
      (by decide) (by decide)

/-- C7: `createOption` unconditionally appends the new option row — it
performs no existence check, never fails, and inserts even when a row
with the same name is already present. -/
theorem createOption_unconditional (s : Store) (n v : String) (b : Bool) :
    (createOption s n v b).rows = s.rows ++ [⟨n, v, b⟩]
  ∧ (createOption s n v b).rows.length = s.rows.length + 1
  ∧ (createOption s n v b).rows.countP (fun o => o.name = n)
      = s.rows.countP (fun o => o.name = n) + 1 := by
  refine ⟨rfl, by simp [createOption], ?_⟩
  simp [createOption, List.countP_append, List.countP_cons]

/-- C9: `getOptionInt` succeeds on a stored string made of a non-empty
digit prefix followed by a non-digit (other than a hex marker), returning
the integer value of that prefix; concretely a stored 42abc yields 42
rather than a `ParseError`. -/
theorem getOptionInt_takes_digit_run (s : Store) (n : String) :
    (∀ (a : Char) (t r : List Char) (c : Char) (d : Option Int),
        getOption s n = Except.ok (String.mk ((a :: t) ++ c :: r)) →
        (∀ x ∈ a :: t, x.isDigit = true) → c.isDigit = false → c ≠ 'x' → c ≠ 'X' →
        getOptionInt s n d = Except.ok ((digitsToNat 10 (a :: t) : Nat) : Int))
  ∧ (getOption s n = Except.ok "42abc" → getOptionInt s n none = Except.ok 42) := by
  constructor
  · intro a t r c d hget hall hc hx hX
    have hjs := jsParseInt_digits_then_stop (r := r) hall hc hx hX
    simp only [List.cons_append] at hjs
    simp [getOptionInt, hget, hjs]
  · intro hget
    have h42 : jsParseInt "42abc" = some 42 := by decide
    simp [getOptionInt, hget, h42]

/-- Witness for C9 at a concrete store holding 42abc. -/
theorem getOptionInt_takes_digit_run_witness :
    getOptionInt (Store.mk true [⟨"x", "42abc", false⟩] []) "x" none = Except.ok 42 := by
  exact (getOptionInt_takes_digit_run
    (Store.mk true [⟨"x", "42abc", false⟩] []) "x").2 (by rfl)

/-- C10: while the entity registry is not loaded (and hence empty),
`setOption` takes the create path even for a name whose option exists in
the persisted rows and is visible to `getOptionOrNull`, so a duplicate
row for that name is produced. -/
theorem setOption_unloaded_duplicates (s : Store) (n v : String) (r : BOption)
    (hl : s.loaded = false) (hreg : s.registry = [])
    (hrow : sqlGetRow s n = some r) :
    getOptionOrNull s n = some r.value
  ∧ setOption s n v = createOption s n v false
  ∧ 2 ≤ (setOption s n v).rows.countP (fun o => o.name = n) := by
  have hb : beccaGetOption s n = none := by simp [beccaGetOption, hreg]
  have h1 : getOptionOrNull s n = some r.value := by
    simp [getOptionOrNull, hl, hrow]
  have h2 : setOption s n v = createOption s n v false := by
    simp [setOption, hb]
  refine ⟨h1, h2, ?_⟩
  rw [h2]
  have hmem : r ∈ s.rows := List.mem_of_find?_eq_some hrow
  have hname : r.name = n := by simpa using List.find?_some hrow
  have hpos : 0 < s.rows.countP (fun o => o.name = n) :=
    List.countP_pos_iff.mpr ⟨r, hmem, by simp [hname]⟩
  have hplus : (createOption s n v false).rows.countP (fun o => o.name = n)
      = s.rows.countP (fun o => o.name = n) + 1 := by
    simp [createOption, List.countP_append, List.countP_cons]
  omega

/-- Witness for C10: an unloaded store whose persisted rows already hold
the option. -/
theorem setOption_unloaded_duplicates_witness :
    getOptionOrNull (Store.mk false [] [⟨"n", "old", true⟩]) "n" = some "old"
  ∧ 2 ≤ (setOption (Store.mk false [] [⟨"n", "old", true⟩]) "n" "new").rows.countP
      (fun o => o.name = "n") := by
  have h := setOption_unloaded_duplicates (Store.mk false [] [⟨"n", "old", true⟩])
    "n" "new" ⟨"n", "old", true⟩ rfl rfl rfl
  exact ⟨h.1, h.2.2⟩

/-! ### Default-initialization helper lemmas -/

theorem applyDefaults_cons (m : OptionMap) (d : DefaultOption)
    (ds : List DefaultOption) (s : Store) :
    applyDefaults m (d :: ds) s
      = applyDefaults m ds
          (if mapHas m d.name then s
           else createOption s d.name (resolveValue d.value m) d.isSynced) := rfl

theorem applyDefaults_rows (m : OptionMap) :
    ∀ (ds : List DefaultOption) (s : Store),
      (applyDefaults m ds s).rows
        = s.rows ++ (ds.filter (fun d => !(mapHas m d.name))).map
            (fun d => ⟨d.name, resolveValue d.value m, d.isSynced⟩)
  | [], s => by simp [applyDefaults]
  | d :: ds, s => by
    rw [applyDefaults_cons]
    cases hm : mapHas m d.name with
    | true =>
      rw [if_pos rfl, applyDefaults_rows m ds s]
      simp [List.filter_cons, hm]
    | false =>
      rw [if_neg (by simp), applyDefaults_rows m ds _]
      simp [List.filter_cons, hm, createOption]

theorem mapGet_none_of_has_false {m : OptionMap} {k : String}
    (h : mapHas m k = false) : mapGet m k = none := by
  unfold mapHas at h
  unfold mapGet
  rw [List.find?_eq_none.mpr]
  · rfl
  · intro p hp hpk
    rw [List.any_eq_false] at h
    exact h p hp hpk

theorem setOption_rows_mem {s : Store} {o : BOption} {n v : String}
    (ho : o ∈ s.rows) (hn : o.name ≠ n) : o ∈ (setOption s n v).rows := by
  unfold setOption
  cases h : beccaGetOption s n with
  | some _ =>
    simp only
    exact List.mem_map.mpr ⟨o, ho, by simp [hn]⟩
  | none =>
    simp only [createOption]
    exact List.mem_append_left _ ho

theorem codeBlockTheme_mem_defaults (win32 : Bool) :
    DefaultOption.mk "codeBlockTheme" (DefaultValue.derived codeBlockThemeDefault) false
      ∈ defaultOptions win32 := by
  simp [defaultOptions]

/-! ### Claim theorems (default initialization) -/

set_option maxRecDepth 400000

/-- C6: the derived default for `codeBlockTheme` is a function of the
`theme` option present in the map when defaulting runs: seeding theme as
light before `initStartupOptions` resolves `codeBlockTheme` to the light
stackoverflow theme, seeding it as dark resolves to the dark one, and the
two resolved values differ. -/
theorem codeBlockTheme_depends_on_theme :
    mapGet (getOptionMap (initStartupOptions false [] (Env.mk none none)
        (Store.mk true [⟨"theme", "light", false⟩] [⟨"theme", "light", false⟩])))
      "codeBlockTheme" = some "default:stackoverflow-light"
  ∧ mapGet (getOptionMap (initStartupOptions false [] (Env.mk none none)
        (Store.mk true [⟨"theme", "dark", false⟩] [⟨"theme", "dark", false⟩])))
      "codeBlockTheme" = some "default:stackoverflow-dark"
  ∧ ("default:stackoverflow-light" : String) ≠ "default:stackoverflow-dark" := by
  refine ⟨by decide, by decide, by decide⟩

/-- C8: `initStartupOptions` snapshots the option map once before
inserting anything: the created rows are exactly the absent table entries
resolved against that pre-run snapshot (so no derived default observes an
option created in the same run); in particular, when `theme` is absent
from the snapshot, `codeBlockTheme` is created with the dark
stackoverflow value. -/
theorem initStartupOptions_snapshot (win32 : Bool) (actions : List KeyboardAction)
    (env : Env) (s : Store) :
    (applyDefaults (getOptionMap s)
        (defaultOptions win32 ++ getKeyboardDefaultOptions actions) s).rows
      = s.rows ++ (((defaultOptions win32 ++ getKeyboardDefaultOptions actions).filter
          (fun d => !(mapHas (getOptionMap s) d.name))).map
          (fun d => ⟨d.name, resolveValue d.value (getOptionMap s), d.isSynced⟩))
  ∧ (mapHas (getOptionMap s) "theme" = false →
      mapHas (getOptionMap s) "codeBlockTheme" = false →
      BOption.mk "codeBlockTheme" "default:stackoverflow-dark" false
        ∈ (initStartupOptions win32 actions env s).rows) := by
  constructor
  · exact applyDefaults_rows (getOptionMap s) _ s
  · intro htheme hcbt
    have hval : resolveValue (DefaultValue.derived codeBlockThemeDefault) (getOptionMap s)
        = "default:stackoverflow-dark" := by
      simp [resolveValue, codeBlockThemeDefault, mapGet_none_of_has_false htheme]
    have hmem : DefaultOption.mk "codeBlockTheme" (DefaultValue.derived codeBlockThemeDefault) false
        ∈ (defaultOptions win32 ++ getKeyboardDefaultOptions actions).filter
            (fun d => !(mapHas (getOptionMap s) d.name)) := by
      apply List.mem_filter.mpr
      refine ⟨List.mem_append_left _ (codeBlockTheme_mem_defaults win32), ?_⟩
      simp [hcbt]
    have hrow : BOption.mk "codeBlockTheme" "default:stackoverflow-dark" false
        ∈ (applyDefaults (getOptionMap s)
            (defaultOptions win32 ++ getKeyboardDefaultOptions actions) s).rows := by
      rw [applyDefaults_rows]
      apply List.mem_append_right
      have := List.mem_map_of_mem
        (fun d => BOption.mk d.name (resolveValue d.value (getOptionMap s)) d.isSynced) hmem
      simpa [hval] using this
    by_cases henv : (envTruthy env.startNoteId || envTruthy env.safeMode) = true
    · simp only [initStartupOptions, henv, if_true]
      exact setOption_rows_mem hrow (by decide)
    · have henv' : (envTruthy env.startNoteId || envTruthy env.safeMode) = false :=
        Bool.eq_false_iff.mpr henv
      simp only [initStartupOptions, henv', Bool.false_eq_true, if_false]
      exact hrow

/-- Witness for C8: a fresh empty loaded store has neither `theme` nor
`codeBlockTheme`, and the run creates the dark code-block theme. -/
theorem initStartupOptions_snapshot_witness :
    BOption.mk "codeBlockTheme" "default:stackoverflow-dark" false
      ∈ (initStartupOptions false [] (Env.mk none none) (Store.mk true [] [])).rows :=
  (initStartupOptions_snapshot false [] (Env.mk none none) (Store.mk true [] [])).2
    (by decide) (by decide)

/-! ### Idempotence helper lemmas -/

theorem mapPut_has (m : OptionMap) (k v n : String) :
    mapHas (mapPut m k v) n = (mapHas m n || decide (k = n)) := by
  unfold mapPut mapHas
  split
  case isTrue h =>
    rw [List.any_map]
    have hpt : ∀ p ∈ m,
        ((fun p => decide (p.1 = n)) ∘ (fun p => if p.1 = k then (k, v) else p)) p
          = decide (p.1 = n) := by
      intro p _
      by_cases hp : p.1 = k
      · simp [hp]
      · simp [hp]
    rw [list_any_congr hpt]
    by_cases hk : k = n
    · subst hk
      simp [h]
    · simp [hk]
  case isFalse h =>
    rw [List.any_append]
    simp

theorem foldl_mapPut_has (n : String) :
    ∀ (l : List BOption) (m : OptionMap),
      mapHas (l.foldl (fun m o => mapPut m o.name o.value) m) n
        = (mapHas m n || l.any (fun o => o.name = n))
  | [], m => by simp
  | o :: t, m => by
    rw [List.foldl_cons, foldl_mapPut_has n t (mapPut m o.name o.value), mapPut_has]
    simp [Bool.or_assoc]

theorem mapHas_getOptionMap (s : Store) (n : String) :
    mapHas (getOptionMap s) n = s.registry.any (fun o => o.name = n) := by
  rw [getOptionMap, foldl_mapPut_has]
  simp [mapHas]

theorem getOptionMap_congr {s t : Store} (h : s.registry = t.registry) :
    getOptionMap s = getOptionMap t := by
  unfold getOptionMap
  rw [h]

theorem registryPut_any_self (reg : List BOption) (o : BOption) :
    (registryPut reg o).any (fun e => e.name = o.name) = true := by
  unfold registryPut
  split
  case isTrue h =>
    rw [List.any_map]
    obtain ⟨e, hm, he⟩ := List.any_eq_true.mp h
    apply List.any_eq_true.mpr
    refine ⟨e, hm, ?_⟩
    simp only [decide_eq_true_eq] at he
    simp [he]
  case isFalse h =>
    apply List.any_eq_true.mpr
    exact ⟨o, List.mem_append_right _ (List.mem_cons_self o []), by simp⟩

theorem registryPut_any_mono {reg : List BOption} {n : String} (o : BOption)
    (h : reg.any (fun e => e.name = n) = true) :
    (registryPut reg o).any (fun e => e.name = n) = true := by
  unfold registryPut
  split
  case isTrue h2 =>
    rw [List.any_map]
    obtain ⟨e, hm, he⟩ := List.any_eq_true.mp h
    have he' : e.name = n := by simpa using he
    apply List.any_eq_true.mpr
    refine ⟨e, hm, ?_⟩
    simp only [Function.comp_apply]
    by_cases hcase : e.name = o.name
    · have ho : o.name = n := by rw [← hcase]; exact he'
      rw [if_pos hcase]
      simp [ho]
    · rw [if_neg hcase]
      simp [he']
  case isFalse h2 =>
    rw [List.any_append]
    simp [h]

theorem setOption_any_mono {s : Store} {n nm v : String}
    (h : s.registry.any (fun e => e.name = n) = true) :
    (setOption s nm v).registry.any (fun e => e.name = n) = true := by
  unfold setOption
  cases hb : beccaGetOption s nm with
  | none => exact registryPut_any_mono _ h
  | some o =>
    simp only
    rw [List.any_map]
    obtain ⟨e, hm, he⟩ := List.any_eq_true.mp h
    have he' : e.name = n := by simpa using he
    apply List.any_eq_true.mpr
    refine ⟨e, hm, ?_⟩
    simp only [Function.comp_apply]
    by_cases hc : e.name = nm
    · rw [if_pos hc]
      simp [he']
    · rw [if_neg hc]
      simp [he']

theorem applyDefaults_any_mono {n : String} :
    ∀ (ds : List DefaultOption) (m : OptionMap) (s : Store),
      s.registry.any (fun e => e.name = n) = true →
      (applyDefaults m ds s).registry.any (fun e => e.name = n) = true
  | [], _, _, h => h
  | d :: ds, m, s, h => by
    rw [applyDefaults_cons]
    apply applyDefaults_any_mono ds m
    cases hc : mapHas m d.name with
    | true =>
      rw [if_pos rfl]
      exact h
    | false =>
      rw [if_neg (by simp)]
      exact registryPut_any_mono _ h

theorem applyDefaults_name_present {n : String} :
    ∀ (ds : List DefaultOption) (m : OptionMap) (s : Store),
      (∃ d ∈ ds, d.name = n) →
      (mapHas m n = true → s.registry.any (fun e => e.name = n) = true) →
      (applyDefaults m ds s).registry.any (fun e => e.name = n) = true
  | [], _, _, hex, _ => by simp at hex
  | d :: ds, m, s, hex, htrans => by
    rw [applyDefaults_cons]
    obtain ⟨d', hd', hdn⟩ := hex
    rcases List.mem_cons.mp hd' with rfl | htail
    · cases hc : mapHas m d'.name with
      | true =>
        rw [if_pos rfl]
        apply applyDefaults_any_mono
        apply htrans
        rw [← hdn]
        exact hc
      | false =>
        rw [if_neg (by simp)]
        apply applyDefaults_any_mono
        have := registryPut_any_self s.registry
          ⟨d'.name, resolveValue d'.value m, d'.isSynced⟩
        rw [show (BOption.mk d'.name (resolveValue d'.value m) d'.isSynced).name = n
          from hdn] at this
        exact this
    · apply applyDefaults_name_present ds m _ ⟨d', htail, hdn⟩
      intro hm
      cases hc : mapHas m d.name with
      | true =>
        rw [if_pos rfl]
        exact htrans hm
      | false =>
        rw [if_neg (by simp)]
        exact registryPut_any_mono _ (htrans hm)

theorem applyDefaults_noop :
    ∀ (ds : List DefaultOption) (m : OptionMap) (s : Store),
      (∀ d ∈ ds, mapHas m d.name = true) → applyDefaults m ds s = s
  | [], _, _, _ => rfl
  | d :: ds, m, s, h => by
    rw [applyDefaults_cons, if_pos (h d (List.mem_cons_self d ds))]
    exact applyDefaults_noop ds m s (fun x hx => h x (List.mem_cons_of_mem d hx))

theorem setOption_eq_update {s : Store} {n v : String} {o : BOption}
    (h : beccaGetOption s n = some o) :
    setOption s n v = { s with
      registry := s.registry.map (fun e => if e.name = n then { e with value := v } else e),
      rows := s.rows.map (fun e => if e.name = n then { e with value := v } else e) } := by
  simp [setOption, h]

theorem registry_any_eq_false_of_find?_none {reg : List BOption} {n : String}
    (h : reg.find? (fun o => o.name = n) = none) :
    reg.any (fun e => e.name = n) = false := by
  rw [List.any_eq_false]
  intro e he
  have := List.find?_eq_none.mp h e he
  simpa using this

theorem setOption_registry_value {s : Store} {n v : String} :
    ∀ e ∈ (setOption s n v).registry, e.name = n → e.value = v := by
  unfold setOption
  cases hb : beccaGetOption s n with
  | some o =>
    simp only
    intro e he hn
    obtain ⟨e0, he0, rfl⟩ := List.mem_map.mp he
    by_cases hc : e0.name = n
    · simp [hc]
    · simp only [if_neg hc] at hn ⊢
      exact absurd hn hc
  | none =>
    intro e he hn
    have hany : s.registry.any (fun e => e.name = n) = false :=
      registry_any_eq_false_of_find?_none hb
    simp only [createOption, registryPut] at he
    rw [if_neg (by simp [hany])] at he
    rcases List.mem_append.mp he with hreg | hnew
    · have := List.any_eq_false.mp hany e hreg
      simp [hn] at this
    · rcases List.mem_singleton.mp hnew with rfl
      rfl

theorem setOption_found_after {s : Store} {n v : String} :
    (beccaGetOption (setOption s n v) n).isSome = true := by
  unfold setOption
  cases hb : beccaGetOption s n with
  | some o =>
    simp only [beccaGetOption]
    have hb' : s.registry.find? (fun e => e.name = n) = some o := hb
    rw [find?_name_map hb']
    rfl
  | none =>
    have hany : s.registry.any (fun e => e.name = n) = false :=
      registry_any_eq_false_of_find?_none hb
    simp only [beccaGetOption, createOption, registryPut]
    rw [if_neg (by simp [hany])]
    rw [list_find?_append_of_none hb]
    simp [List.find?_cons]

theorem setOption_idem_registry (s : Store) (n v : String) :
    (setOption (setOption s n v) n v).registry = (setOption s n v).registry := by
  obtain ⟨o, ho⟩ := Option.isSome_iff_exists.mp
    (setOption_found_after (s := s) (n := n) (v := v))
  rw [setOption_eq_update ho]
  simp only
  apply list_map_id_of_mem
  intro e he
  by_cases hc : e.name = n
  · have hv : e.value = v := setOption_registry_value e he hc
    cases e
    simp only at hv
    simp [hc, hv]
  · simp [hc]

/-- C1: `initStartupOptions` is idempotent — for every starting store
state (and fixed platform, keyboard registry and environment), the option
map after running it twice equals the option map after running it once:
presence of a name alone suppresses the default insertion, so the second
run inserts nothing and changes no value. -/
theorem initStartupOptions_idempotent (win32 : Bool) (actions : List KeyboardAction)
    (env : Env) (s : Store) :
    getOptionMap (initStartupOptions win32 actions env
        (initStartupOptions win32 actions env s))
      = getOptionMap (initStartupOptions win32 actions env s) := by
  have key : ∀ d ∈ (defaultOptions win32 ++ getKeyboardDefaultOptions actions),
      (initStartupOptions win32 actions env s).registry.any
        (fun e => e.name = d.name) = true := by
    intro d hd
    have base : (applyDefaults (getOptionMap s)
        (defaultOptions win32 ++ getKeyboardDefaultOptions actions) s).registry.any
          (fun e => e.name = d.name) = true := by
      apply applyDefaults_name_present _ _ _ ⟨d, hd, rfl⟩
      intro hm
      rw [← mapHas_getOptionMap]
      exact hm
    by_cases henv : (envTruthy env.startNoteId || envTruthy env.safeMode) = true
    · simp only [initStartupOptions, henv, if_true]
      exact setOption_any_mono base
    · have henv' : (envTruthy env.startNoteId || envTruthy env.safeMode) = false :=
        Bool.eq_false_iff.mpr henv
      simp only [initStartupOptions, henv', Bool.false_eq_true, if_false]
      exact base
  have snap : ∀ d ∈ (defaultOptions win32 ++ getKeyboardDefaultOptions actions),
      mapHas (getOptionMap (initStartupOptions win32 actions env s)) d.name = true := by
    intro d hd
    rw [mapHas_getOptionMap]
    exact key d hd
  have run2fold : applyDefaults
      (getOptionMap (initStartupOptions win32 actions env s))
      (defaultOptions win32 ++ getKeyboardDefaultOptions actions)
      (initStartupOptions win32 actions env s)
        = initStartupOptions win32 actions env s :=
    applyDefaults_noop _ _ _ snap
  by_cases henv : (envTruthy env.startNoteId || envTruthy env.safeMode) = true
  · have hs1 : initStartupOptions win32 actions env s
        = setOption (applyDefaults (getOptionMap s)
            (defaultOptions win32 ++ getKeyboardDefaultOptions actions) s)
          "openNoteContexts"
          (openNoteContextsJson
            (match env.startNoteId with
             | some id => if id == "" then "root" else id
             | none => "root")) := by
      simp only [initStartupOptions, henv, if_true]
    conv_lhs => rw [initStartupOptions]
    simp only [henv, if_true, run2fold]
    apply getOptionMap_congr
    conv_rhs => rw [hs1]
    rw [hs1]
    exact setOption_idem_registry _ _ _
  · have henv' : (envTruthy env.startNoteId || envTruthy env.safeMode) = false :=
      Bool.eq_false_iff.mpr henv
    conv_lhs => rw [initStartupOptions]
    simp only [henv', Bool.false_eq_true, if_false, run2fold]

end NotesOptions
